import Mathlib

/-!
# Verification of the OpenVPN status-file exporter (kumina/openvpn_exporter)

This file gives a shallow embedding of `exporters/openvpn_exporter.go` —
the format detector, the server status decoder, the client status decoder
and the API-JSON decoder — and proves properties of that embedding.

Modelling conventions:
* `float64` values are modelled as `ℚ`; every numeric value appearing in the
  proofs below is integral, where the two representations agree exactly.
* Go `map` values are modelled as association lists with first-match lookup
  and cons-front insertion (so an insertion overwrites an earlier binding).
  The only map the Go code *iterates* is in the API decoder, where the model
  fixes the iteration order to list order.
* A `prometheus.Desc` is identified by the metric it describes
  (`MetricDesc` below); distinct descriptors in the source are distinct
  constructors.
* Errors built with `fmt.Errorf` / returned by the standard library are
  modelled by the `GoError` inductive, one constructor per distinct error
  site, carrying the data interpolated into the message.
* `strconv.ParseFloat` is modelled by `goParseFloat` on the decimal grammar
  (sign, digits, optional fraction, optional exponent); the special forms
  `Inf`/`NaN`/hex floats never occur in the inputs considered here.
* `bufio.ScanLines` is modelled by `goScanLines` and `strings.Split` by
  `goSplit` on a separator character (both separators the source passes,
  `","` and `"\t"`, are single characters); like Go, splitting the empty
  string yields `[""]`.
-/

/-- Identity of a `prometheus.Desc` created in `NewOpenVPNExporter`. -/
inductive MetricDesc where
  | up
  | statusUpdateTime
  | serverBuildInfo
  | connectedClients
  | clientReceivedBytes
  | clientSentBytes
  | routeLastRefTime
  | tunTapReadBytes
  | tunTapWriteBytes
  | tcpUdpReadBytes
  | tcpUdpWriteBytes
  | authReadBytes
  | preCompressBytes
  | postCompressBytes
  | preDecompressBytes
  | postDecompressBytes
  deriving DecidableEq, Repr

/-- `prometheus.ValueType`. -/
inductive PromValueType where
  | counterValue
  | gaugeValue
  deriving DecidableEq, Repr

/-- One metric pushed to the `ch chan<- prometheus.Metric` sink by
`prometheus.MustNewConstMetric(desc, valueType, value, labels...)`. -/
structure Observation where
  desc : MetricDesc
  valueType : PromValueType
  value : ℚ
  labels : List String
  deriving DecidableEq, Repr

/-- The errors the decoders can return, one constructor per source site:
* `parseError s` — `strconv.ParseFloat(s, 64)` failed;
* `timeParseError s` — `time.ParseInLocation` failed on `s`;
* `sequenceError d` — `fmt.Errorf("%s should be preceded by HEADERS", d)`;
* `schemaError d` — `fmt.Errorf("HEADER for %s describes a different number of columns", d)`;
* `unsupportedKey k` — `fmt.Errorf("unsupported key: %q", k)`;
* `formatError b` — `fmt.Errorf("unexpected file contents: %q", b)`. -/
inductive GoError where
  | parseError (s : String)
  | timeParseError (s : String)
  | sequenceError (directive : String)
  | schemaError (directive : String)
  | unsupportedKey (key : String)
  | formatError (leadingBytes : String)
  deriving DecidableEq, Repr

/-- First-match lookup in an association list (a Go `map` read `m[k]`). -/
def alookup {β : Type} : List (String × β) → String → Option β
  | [], _ => none
  | (k, v) :: rest, key => if k = key then some v else alookup rest key

/-- `OpenvpnServerHeaderField` from the source, with the `*prometheus.Desc`
replaced by its identity.  Used as a map key exactly as in the source
(`recordedMetrics` is keyed by the whole struct). -/
structure OpenvpnServerHeaderField where
  Column : String
  Desc : MetricDesc
  ValueType : PromValueType
  deriving DecidableEq, Repr

/-- `OpenvpnServerHeader` from the source. -/
structure OpenvpnServerHeader where
  LabelColumns : List String
  Metrics : List OpenvpnServerHeaderField
  deriving DecidableEq, Repr

/-- The `CLIENT_LIST` label columns chosen in `NewOpenVPNExporter`,
parameterised by `ignoreIndividuals`. -/
def serverHeaderClientLabelColumns (ignoreIndividuals : Bool) : List String :=
  if ignoreIndividuals then ["Common Name"]
  else ["Common Name", "Connected Since (time_t)", "Real Address",
        "Virtual Address", "Username"]

/-- The `ROUTING_TABLE` label columns chosen in `NewOpenVPNExporter`. -/
def serverHeaderRoutingLabelColumns (ignoreIndividuals : Bool) : List String :=
  if ignoreIndividuals then ["Common Name"]
  else ["Common Name", "Real Address", "Virtual Address"]

/-- The static `openvpnServerHeaders` directive table built in
`NewOpenVPNExporter`. -/
def openvpnServerHeaders (ignoreIndividuals : Bool) :
    List (String × OpenvpnServerHeader) :=
  [("CLIENT_LIST",
    { LabelColumns := serverHeaderClientLabelColumns ignoreIndividuals
      Metrics :=
        [{ Column := "Bytes Received"
           Desc := .clientReceivedBytes
           ValueType := .counterValue },
         { Column := "Bytes Sent"
           Desc := .clientSentBytes
           ValueType := .counterValue }] }),
   ("ROUTING_TABLE",
    { LabelColumns := serverHeaderRoutingLabelColumns ignoreIndividuals
      Metrics :=
        [{ Column := "Last Ref (time_t)"
           Desc := .routeLastRefTime
           ValueType := .gaugeValue }] })]

/-- The static `openvpnClientDescs` table: the nine client traffic-counter
names and their descriptors. -/
def openvpnClientDescs : List (String × MetricDesc) :=
  [("TUN/TAP read bytes", .tunTapReadBytes),
   ("TUN/TAP write bytes", .tunTapWriteBytes),
   ("TCP/UDP read bytes", .tcpUdpReadBytes),
   ("TCP/UDP write bytes", .tcpUdpWriteBytes),
   ("Auth read bytes", .authReadBytes),
   ("pre-compress bytes", .preCompressBytes),
   ("post-compress bytes", .postCompressBytes),
   ("pre-decompress bytes", .preDecompressBytes),
   ("post-decompress bytes", .postDecompressBytes)]

/-- `contains` from the source: does slice `s` contain string `e`. -/
def contains (s : List String) (e : String) : Bool :=
  s.any (fun a => a = e)

/-- `subslice` from the source: `sub` is no longer than `main` and each of
its elements occurs somewhere in `main`. -/
def subslice (sub main : List String) : Bool :=
  if sub.length > main.length then false
  else sub.all (fun s => contains main s)

/-- Value of a digit character. -/
def digitVal (c : Char) : ℕ := c.toNat - 48

/-- Digits to a natural number, most significant first. -/
def digitsToNat (ds : List Char) : ℕ :=
  ds.foldl (fun n c => n * 10 + digitVal c) 0

/-- Model of `strconv.ParseFloat(s, 64)` on the decimal grammar
`[+-]? digits [. digits] [eE [+-]? digits]`, requiring at least one digit in
the mantissa; the result is exact (`ℚ` instead of a rounded `float64`).
`Inf`, `NaN` and hex-float forms are not modelled.  The value is assembled
with integer arithmetic (mantissa digits and a net power of ten) so that it
evaluates by kernel reduction on concrete inputs. -/
def goParseFloat (s : String) : Option ℚ :=
  let cs := s.toList
  let signed : Bool × List Char :=
    match cs with
    | '-' :: rest => (true, rest)
    | '+' :: rest => (false, rest)
    | _ => (false, cs)
  let neg := signed.1
  let cs := signed.2
  let intDigits := cs.takeWhile Char.isDigit
  let afterInt := cs.dropWhile Char.isDigit
  let fracSplit : List Char × List Char :=
    match afterInt with
    | '.' :: rest => (rest.takeWhile Char.isDigit, rest.dropWhile Char.isDigit)
    | _ => ([], afterInt)
  let fracDigits := fracSplit.1
  let afterFrac := fracSplit.2
  if intDigits.isEmpty ∧ fracDigits.isEmpty then none
  else
    let build : ℤ → Option ℚ := fun expVal =>
      let mant : ℤ := (digitsToNat (intDigits ++ fracDigits) : ℤ)
      let mant : ℤ := if neg then -mant else mant
      let netExp : ℤ := expVal - (fracDigits.length : ℤ)
      if 0 ≤ netExp then
        some (((mant * (10 : ℤ) ^ netExp.toNat : ℤ) : ℚ))
      else
        some (((mant : ℤ) : ℚ) / (((10 : ℕ) ^ (-netExp).toNat : ℕ) : ℚ))
    match afterFrac with
    | [] => build 0
    | e :: rest =>
      if e = 'e' ∨ e = 'E' then
        let expSigned : Bool × List Char :=
          match rest with
          | '-' :: r => (true, r)
          | '+' :: r => (false, r)
          | _ => (false, rest)
        let expDigits := expSigned.2.takeWhile Char.isDigit
        let afterExp := expSigned.2.dropWhile Char.isDigit
        if expDigits.isEmpty ∨ ¬afterExp.isEmpty then none
        else
          build (if expSigned.1 then -(digitsToNat expDigits : ℤ)
            else (digitsToNat expDigits : ℤ))
      else none

/-- Split a character list at every occurrence of the separator character,
like Go `strings.Split` with a one-character separator (the only separators
the source uses are `","` and `"\t"`): the empty input yields one empty
field. -/
def goSplitChars (sep : Char) : List Char → List (List Char)
  | [] => [[]]
  | c :: rest =>
    if c = sep then [] :: goSplitChars sep rest
    else
      match goSplitChars sep rest with
      | [] => [[c]]
      | g :: gs => (c :: g) :: gs

/-- `strings.Split(s, sep)` for the one-character separators used by the
decoders. -/
def goSplit (sep : Char) (s : String) : List String :=
  (goSplitChars sep s.toList).map (fun cs => String.mk cs)

/-- `dropCR` from `bufio.ScanLines`: strip one trailing carriage return. -/
def dropCR (l : String) : String :=
  if l.toList.getLast? = some (Char.ofNat 13) then String.mk l.toList.dropLast
  else l

/-- Model of reading a stream with `bufio.Scanner` + `bufio.ScanLines`:
split on newlines, a trailing newline produces no extra empty line, empty
input produces no lines, and each line loses one trailing `\r`. -/
def goScanLines (s : String) : List String :=
  if s.toList = [] then []
  else
    let parts := goSplit (Char.ofNat 10) s
    let parts := if s.toList.getLast? = some (Char.ofNat 10) then parts.dropLast
      else parts
    parts.map dropCR

/-- Per-pass mutable state of `collectServerStatusFromReader`:
`headersFound` (record type → announced column names), the connected-client
counter, and `recordedMetrics` (metric field → flat list of all label values
appended for it so far). -/
structure ServerScanState where
  headersFound : List (String × List String)
  numberConnectedClient : ℕ
  recordedMetrics : List (OpenvpnServerHeaderField × List String)
  deriving DecidableEq, Repr

/-- The state at the top of `collectServerStatusFromReader`. -/
def initServerScanState : ServerScanState :=
  { headersFound := [], numberConnectedClient := 0, recordedMetrics := [] }

/-- Read `recordedMetrics[metric]`: the Go two-value read `l, _ := m[k]`
yields the nil slice when the key is absent. -/
def recordedFor (m : List (OpenvpnServerHeaderField × List String))
    (k : OpenvpnServerHeaderField) : List String :=
  match m with
  | [] => []
  | (k', v) :: rest => if k' = k then v else recordedFor rest k

/-- Write `recordedMetrics[metric] = v` (cons-front insertion; lookup takes
the first match, so this overwrites). -/
def recordedSet (m : List (OpenvpnServerHeaderField × List String))
    (k : OpenvpnServerHeaderField) (v : List String) :
    List (OpenvpnServerHeaderField × List String) :=
  (k, v) :: m

/-- Build the `columnValues` map of a server data record: initialise every
label column to the empty string, then store `fields[i+1]` under the `i`-th
HEADER-announced column name.  Cons-front writes with first-match lookup
reproduce Go's last-write-wins map semantics. -/
def buildColumnValues (labelColumns columnNames fields : List String) :
    List (String × String) :=
  let init := labelColumns.foldl (fun m c => (c, "") :: m) []
  (columnNames.zip (fields.drop 1)).foldl (fun m cv => cv :: m) init

/-- The metric-emission loop at the bottom of the data-record branch of
`collectServerStatusFromReader`: for each metric field whose source column
is present, either suppress (when `subslice labels recorded` holds, the
duplicate is only logged), or parse the value and emit, recording the
labels.  A parse failure returns the error, keeping earlier emissions. -/
def processMetrics (labels : List String)
    (columnValues : List (String × String))
    (recorded : List (OpenvpnServerHeaderField × List String)) :
    List OpenvpnServerHeaderField →
    List Observation × Option GoError × List (OpenvpnServerHeaderField × List String)
  | [] => ([], none, recorded)
  | metric :: rest =>
    match alookup columnValues metric.Column with
    | none => processMetrics labels columnValues recorded rest
    | some columnValue =>
      if subslice labels (recordedFor recorded metric) then
        -- duplicate: logged, not emitted
        processMetrics labels columnValues recorded rest
      else
        match goParseFloat columnValue with
        | none => ([], some (.parseError columnValue), recorded)
        | some value =>
          let recorded' :=
            recordedSet recorded metric (recordedFor recorded metric ++ labels)
          let next := processMetrics labels columnValues recorded' rest
          (⟨metric.Desc, metric.ValueType, value, labels⟩ :: next.1,
           next.2.1, next.2.2)

/-- The `numberConnectedClient++` done when a `CLIENT_LIST` data record is
dispatched. -/
def bumpConnected (f0 : String) (st : ServerScanState) : ServerScanState :=
  if f0 = "CLIENT_LIST" then
    { st with numberConnectedClient := st.numberConnectedClient + 1 }
  else st

/-- The data-record branch of the scan loop of
`collectServerStatusFromReader`: the branch taken when `fields[0]` is a
key of `openvpnServerHeaders`, starting with the connected-client
increment. -/
def serverDataRecord (statusPath : String) (header : OpenvpnServerHeader)
    (st : ServerScanState) (fields : List String) :
    List Observation × Option GoError × ServerScanState :=
  let f0 := fields.headD ""
  let st := bumpConnected f0 st
  match alookup st.headersFound f0 with
  | none => ([], some (.sequenceError f0), st)
  | some columnNames =>
    if fields.length ≠ columnNames.length + 1 then
      ([], some (.schemaError f0), st)
    else
      let columnValues := buildColumnValues header.LabelColumns columnNames fields
      let labels := statusPath ::
        header.LabelColumns.map (fun c => (alookup columnValues c).getD "")
      let r := processMetrics labels columnValues st.recordedMetrics header.Metrics
      (r.1, r.2.1, { st with recordedMetrics := r.2.2 })

/-- One iteration of the scan loop of `collectServerStatusFromReader`,
taking the already-split fields of the line.  Returns the observations
pushed to `ch`, the error (if the iteration returns one), and the state
afterwards. -/
def serverLineStep (ignoreIndividuals : Bool) (statusPath : String)
    (st : ServerScanState) (fields : List String) :
    List Observation × Option GoError × ServerScanState :=
  let f0 := fields.headD ""
  if f0 = "END" ∧ fields.length = 1 then
    ([], none, st)
  else if f0 = "GLOBAL_STATS" then
    ([], none, st)
  else if f0 = "HEADER" ∧ fields.length > 2 then
    ([], none,
     { st with headersFound := (fields.getD 1 "", fields.drop 2) :: st.headersFound })
  else if f0 = "TIME" ∧ fields.length = 3 then
    match goParseFloat (fields.getD 2 "") with
    | none => ([], some (.parseError (fields.getD 2 "")), st)
    | some timeStartStats =>
      ([⟨.statusUpdateTime, .gaugeValue, timeStartStats, [statusPath]⟩], none, st)
  else if f0 = "TITLE" ∧ fields.length = 2 then
    ([], none, st)
  else
    match alookup (openvpnServerHeaders ignoreIndividuals) f0 with
    | some header => serverDataRecord statusPath header st fields
    | none => ([], some (.unsupportedKey f0), st)

/-- The scan loop of `collectServerStatusFromReader` over a list of lines:
each line is split on the separator and handled by `serverLineStep`; the
first error stops the loop. -/
def serverSteps (ignoreIndividuals : Bool) (statusPath : String)
    (separator : Char) (st : ServerScanState) :
    List String → List Observation × Option GoError × ServerScanState
  | [] => ([], none, st)
  | line :: rest =>
    let r := serverLineStep ignoreIndividuals statusPath st (goSplit separator line)
    match r.2.1 with
    | some e => (r.1, some e, r.2.2)
    | none =>
      let next := serverSteps ignoreIndividuals statusPath separator r.2.2 rest
      (r.1 ++ next.1, next.2.1, next.2.2)

/-- `collectServerStatusFromReader` on pre-scanned lines: run the loop and,
when it completes without error, emit the connected-clients gauge. -/
def collectServerLines (ignoreIndividuals : Bool) (statusPath : String)
    (separator : Char) (lines : List String) : List Observation × Option GoError :=
  let r := serverSteps ignoreIndividuals statusPath separator initServerScanState lines
  match r.2.1 with
  | some e => (r.1, some e)
  | none =>
    (r.1 ++
      [⟨.connectedClients, .gaugeValue, (r.2.2.numberConnectedClient : ℚ), [statusPath]⟩],
     none)

/-- Abbreviated weekday names accepted by Go layout `Mon`. -/
def goWeekdayNames : List String :=
  ["Sun", "Mon", "Tue", "Wed", "Thu", "Fri", "Sat"]

/-- Abbreviated month names of Go layout `Jan`, with month numbers. -/
def goMonthNames : List (String × ℕ) :=
  [("Jan", 1), ("Feb", 2), ("Mar", 3), ("Apr", 4), ("May", 5), ("Jun", 6),
   ("Jul", 7), ("Aug", 8), ("Sep", 9), ("Oct", 10), ("Nov", 11), ("Dec", 12)]

/-- A non-empty all-digit string to its value. -/
def parseNatDigits (s : String) : Option ℕ :=
  if s.toList.length > 0 ∧ s.toList.all Char.isDigit then some (digitsToNat s.toList)
  else none

/-- Days from the Unix epoch to the civil date `y-m-d` (proleptic
Gregorian). -/
def daysFromCivil (y : ℤ) (m d : ℕ) : ℤ :=
  let y' : ℤ := if m ≤ 2 then y - 1 else y
  let era : ℤ := (if 0 ≤ y' then y' else y' - 399) / 400
  let yoe : ℤ := y' - era * 400
  let mp : ℤ := ((m : ℤ) + 9) % 12
  let doy : ℤ := (153 * mp + 2) / 5 + (d : ℤ) - 1
  let doe : ℤ := yoe * 365 + yoe / 4 - yoe / 100 + doy
  era * 146097 + doe - 719468

/-- Modelled from the spec and the Go standard library:
`time.ParseInLocation("Mon Jan 2 15:04:05 2006", s, local)` followed by
`.Unix()`.  Parses the fixed layout (weekday and month by abbreviated
name, one- or two-digit day, two-digit clock fields, four-digit year) and
converts to Unix seconds; the local-timezone offset is modelled as zero
(no property proved below depends on the numeric value). -/
def parseUpdatedTime (s : String) : Option ℤ :=
  match goSplit (Char.ofNat 32) s with
  | [wd, mo, dayS, clock, yearS] =>
    if ¬ goWeekdayNames.contains wd then none
    else
      match alookup goMonthNames mo with
      | none => none
      | some m =>
        match parseNatDigits dayS, parseNatDigits yearS with
        | some d, some y =>
          if dayS.toList.length > 2 ∨ yearS.toList.length ≠ 4 ∨ d = 0 ∨ d > 31 then none
          else
            match goSplit (Char.ofNat 58) clock with
            | [hS, minS, secS] =>
              match parseNatDigits hS, parseNatDigits minS, parseNatDigits secS with
              | some h, some mi, some sec =>
                if hS.toList.length ≠ 2 ∨ minS.toList.length ≠ 2 ∨ secS.toList.length ≠ 2 ∨
                    h ≥ 24 ∨ mi ≥ 60 ∨ sec ≥ 60 then none
                else
                  some (daysFromCivil (y : ℤ) m d * 86400 +
                    (h : ℤ) * 3600 + (mi : ℤ) * 60 + (sec : ℤ))
              | _, _, _ => none
            | _ => none
        | _, _ => none
  | _ => none

/-- One iteration of the scan loop of `collectClientStatusFromReader`,
taking the already-comma-split fields of the line. -/
def clientLineStep (statusPath : String) (fields : List String) :
    List Observation × Option GoError :=
  let f0 := fields.headD ""
  if f0 = "END" ∧ fields.length = 1 then
    ([], none)
  else if f0 = "OpenVPN STATISTICS" ∧ fields.length = 1 then
    ([], none)
  else if f0 = "Updated" ∧ fields.length = 2 then
    match parseUpdatedTime (fields.getD 1 "") with
    | none => ([], some (.timeParseError (fields.getD 1 "")))
    | some t =>
      ([⟨.statusUpdateTime, .gaugeValue, (t : ℚ), [statusPath]⟩], none)
  else
    match alookup openvpnClientDescs f0 with
    | some desc =>
      if fields.length = 2 then
        match goParseFloat (fields.getD 1 "") with
        | none => ([], some (.parseError (fields.getD 1 "")))
        | some value =>
          ([⟨desc, .counterValue, value, [statusPath]⟩], none)
      else ([], some (.unsupportedKey f0))
    | none => ([], some (.unsupportedKey f0))

/-- The scan loop of `collectClientStatusFromReader` over a list of lines;
the first error stops the loop. -/
def clientSteps (statusPath : String) :
    List String → List Observation × Option GoError
  | [] => ([], none)
  | line :: rest =>
    let r := clientLineStep statusPath (goSplit (Char.ofNat 44) line)
    match r.2 with
    | some e => (r.1, some e)
    | none =>
      let next := clientSteps statusPath rest
      (r.1 ++ next.1, next.2)

/-- `collectClientStatusFromReader` on pre-scanned lines. -/
def collectClientLines (statusPath : String) (lines : List String) :
    List Observation × Option GoError :=
  clientSteps statusPath lines

/-- `bytes.HasPrefix(buf, pfx)` on the modelled byte strings. -/
def goHasPrefix (buf pfx : String) : Bool :=
  pfx.toList.isPrefixOf buf.toList

/-- `reader.Peek(18)`: the first at most 18 bytes of the stream. -/
def peekBuf (contents : String) : String :=
  String.mk (contents.toList.take 18)

/-- `collectStatusFromReader`: peek at most 18 bytes, classify by prefix,
and run the selected decoder over the whole stream; unrecognized leading
bytes give the format error, with nothing emitted.  The two server formats
differ only in the separator character passed down. -/
def collectStatusFromReader (ignoreIndividuals : Bool)
    (statusPath : String) (contents : String) :
    List Observation × Option GoError :=
  let buf := peekBuf contents
  if goHasPrefix buf "TITLE," then
    collectServerLines ignoreIndividuals statusPath (Char.ofNat 44)
      (goScanLines contents)
  else if goHasPrefix buf "TITLE\t" then
    collectServerLines ignoreIndividuals statusPath (Char.ofNat 9)
      (goScanLines contents)
  else if goHasPrefix buf "OpenVPN STATISTICS" then
    collectClientLines statusPath (goScanLines contents)
  else
    ([], some (.formatError buf))

/-- A Go `interface{}` value as produced by `json.Unmarshal`: strings,
`float64` numbers, booleans, `nil`, `[]interface{}` and
`map[string]interface{}` (the map modelled as an association list in a
fixed iteration order). -/
inductive Jv where
  | str (s : String)
  | num (q : ℚ)
  | boolean (b : Bool)
  | null
  | arr (xs : List Jv)
  | obj (kvs : List (String × Jv))
  deriving Repr

/-- Checked form of the type assertion `v.(string)`. -/
def Jv.asString : Jv → Option String
  | .str s => some s
  | _ => none

/-- Checked form of the type assertion `v.([]interface\x7b\x7d)`. -/
def Jv.asArr : Jv → Option (List Jv)
  | .arr xs => some xs
  | _ => none

/-- Checked form of the type assertion `v.(map[string]interface\x7b\x7d)`. -/
def Jv.asObj : Jv → Option (List (String × Jv))
  | .obj kvs => some kvs
  | _ => none

/-- How a run of `collectStatusFromApiInterface` ends: normal return,
an error return, or a runtime panic (a failed unchecked type assertion or
an out-of-range index). -/
inductive ApiOutcome where
  | ok
  | errored (e : GoError)
  | panicked
  deriving DecidableEq, Repr

/-- `strings.ToUpper` (ASCII suffices for the category names used). -/
def goToUpper (s : String) : String := s.map Char.toUpper

/-- The hardcoded label-column positions of the API decoder's `switch` on
label columns; an unmatched column leaves the `var index int` zero value. -/
def apiLabelIndex (category column : String) : ℕ :=
  if category = "client_list" then
    if column = "Common Name" then 0
    else if column = "Real Address" then 1
    else if column = "Virtual Address" then 2
    else if column = "Connected Since (time_t)" then 7
    else if column = "Username" then 8
    else 0
  else if category = "routing_table" then
    if column = "Virtual Address" then 0
    else if column = "Common Name" then 1
    else if column = "Real Address" then 2
    else 0
  else 0

/-- The hardcoded metric-column positions of the API decoder's `switch` on
metric columns. -/
def apiMetricIndex (column : String) : ℕ :=
  if column = "Bytes Received" then 4
  else if column = "Bytes Sent" then 5
  else if column = "Last Ref (time_t)" then 4
  else 0

/-- The label-column loop of the API decoder: store
`item[index].(string)` under each label column; a missing index or a
non-string is a panic (`none`). -/
def apiBuildLabelValues (category : String) (item : List Jv) :
    List String → List (String × String) → Option (List (String × String))
  | [], acc => some acc
  | c :: rest, acc =>
    match (item.get? (apiLabelIndex category c)).bind Jv.asString with
    | none => none
    | some v => apiBuildLabelValues category item rest ((c, v) :: acc)

/-- The metric-column loop of the API decoder: store
`item[index].(string)` under each metric's column. -/
def apiAddMetricValues (item : List Jv) :
    List OpenvpnServerHeaderField → List (String × String) →
    Option (List (String × String))
  | [], acc => some acc
  | m :: rest, acc =>
    match (item.get? (apiMetricIndex m.Column)).bind Jv.asString with
    | none => none
    | some v => apiAddMetricValues item rest ((m.Column, v) :: acc)

/-- The emission loop of the API decoder (no dedupe): parse each metric's
column value and emit; a parse failure returns the error. -/
def apiEmitMetrics (labels : List String) (columnValues : List (String × String)) :
    List OpenvpnServerHeaderField → List Observation × Option GoError
  | [] => ([], none)
  | metric :: rest =>
    match alookup columnValues metric.Column with
    | none => apiEmitMetrics labels columnValues rest
    | some columnValue =>
      match goParseFloat columnValue with
      | none => ([], some (.parseError columnValue))
      | some value =>
        let next := apiEmitMetrics labels columnValues rest
        (⟨metric.Desc, metric.ValueType, value, labels⟩ :: next.1, next.2)

/-- Processing of one element of a `client_list` / `routing_table` array. -/
def apiItemStep (ignoreIndividuals : Bool) (statusPath category : String)
    (cnt : ℕ) (itemJv : Jv) : List Observation × ℕ × ApiOutcome :=
  match itemJv.asArr with
  | none => ([], cnt, .panicked)
  | some item =>
    match alookup (openvpnServerHeaders ignoreIndividuals) (goToUpper category) with
    | none => ([], cnt, .ok)
    | some header =>
      let cnt := if category = "client_list" then cnt + 1 else cnt
      match apiBuildLabelValues category item header.LabelColumns [] with
      | none => ([], cnt, .panicked)
      | some cv0 =>
        match apiAddMetricValues item header.Metrics cv0 with
        | none => ([], cnt, .panicked)
        | some columnValues =>
          let labels := statusPath ::
            header.LabelColumns.map (fun c => (alookup columnValues c).getD "")
          let r := apiEmitMetrics labels columnValues header.Metrics
          match r.2 with
          | some e => (r.1, cnt, .errored e)
          | none => (r.1, cnt, .ok)

/-- The array loop over `client_list` / `routing_table` items. -/
def apiItemsStep (ignoreIndividuals : Bool) (statusPath category : String)
    (cnt : ℕ) : List Jv → List Observation × ℕ × ApiOutcome
  | [] => ([], cnt, .ok)
  | it :: rest =>
    let r := apiItemStep ignoreIndividuals statusPath category cnt it
    match r.2.2 with
    | .ok =>
      let next := apiItemsStep ignoreIndividuals statusPath category r.2.1 rest
      (r.1 ++ next.1, next.2.1, next.2.2)
    | out => (r.1, r.2.1, out)

/-- Processing of one category of one instance: `title`, `time`,
`client_list` / `routing_table`; any other category is silently ignored.
The unchecked type assertions of the source become `.panicked`. -/
def apiCategoryStep (ignoreIndividuals : Bool) (statusPath instanceId : String)
    (cnt : ℕ) (category : String) (categoryData : Jv) :
    List Observation × ℕ × ApiOutcome :=
  if category = "title" then
    match categoryData.asString with
    | none => ([], cnt, .panicked)
    | some buildInfo =>
      ([⟨.serverBuildInfo, .gaugeValue, 1, [statusPath, instanceId, buildInfo]⟩],
       cnt, .ok)
  else if category = "time" then
    match categoryData.asArr with
    | none => ([], cnt, .panicked)
    | some t =>
      match (t.get? 1).bind Jv.asString with
      | none => ([], cnt, .panicked)
      | some ts =>
        match goParseFloat ts with
        | none => ([], cnt, .errored (.parseError ts))
        | some timeStartStats =>
          ([⟨.statusUpdateTime, .gaugeValue, timeStartStats, [statusPath, instanceId]⟩],
           cnt, .ok)
  else if category = "client_list" ∨ category = "routing_table" then
    match categoryData.asArr with
    | none => ([], cnt, .panicked)
    | some items => apiItemsStep ignoreIndividuals statusPath category cnt items
  else ([], cnt, .ok)

/-- The category loop over one instance's object. -/
def apiCategoriesStep (ignoreIndividuals : Bool) (statusPath instanceId : String)
    (cnt : ℕ) : List (String × Jv) → List Observation × ℕ × ApiOutcome
  | [] => ([], cnt, .ok)
  | (category, categoryData) :: rest =>
    let r := apiCategoryStep ignoreIndividuals statusPath instanceId cnt
      category categoryData
    match r.2.2 with
    | .ok =>
      let next := apiCategoriesStep ignoreIndividuals statusPath instanceId
        r.2.1 rest
      (r.1 ++ next.1, next.2.1, next.2.2)
    | out => (r.1, r.2.1, out)

/-- One instance of the top-level object: a non-object value is silently
skipped (`if dataInterface, ok := ...; ok` with no else branch). -/
def apiInstanceStep (ignoreIndividuals : Bool) (statusPath : String)
    (cnt : ℕ) (instanceId : String) (data : Jv) :
    List Observation × ℕ × ApiOutcome :=
  match data.asObj with
  | none => ([], cnt, .ok)
  | some cats => apiCategoriesStep ignoreIndividuals statusPath instanceId cnt cats

/-- The instance loop of `collectStatusFromApiInterface`. -/
def apiInstancesStep (ignoreIndividuals : Bool) (statusPath : String)
    (cnt : ℕ) : List (String × Jv) → List Observation × ℕ × ApiOutcome
  | [] => ([], cnt, .ok)
  | (instanceId, data) :: rest =>
    let r := apiInstanceStep ignoreIndividuals statusPath cnt instanceId data
    match r.2.2 with
    | .ok =>
      let next := apiInstancesStep ignoreIndividuals statusPath r.2.1 rest
      (r.1 ++ next.1, next.2.1, next.2.2)
    | out => (r.1, r.2.1, out)

/-- `collectStatusFromApiInterface`: decode every instance and, on normal
completion, emit the connected-clients gauge; an error return or a panic
ends the run without it. -/
def collectStatusFromApiInterface (ignoreIndividuals : Bool)
    (statusPath : String) (outputInterface : List (String × Jv)) :
    List Observation × ApiOutcome :=
  let r := apiInstancesStep ignoreIndividuals statusPath 0 outputInterface
  match r.2.2 with
  | .ok =>
    (r.1 ++ [⟨.connectedClients, .gaugeValue, (r.2.1 : ℚ), [statusPath]⟩], .ok)
  | out => (r.1, out)

/-- Spec-side description of one label value of a server data record (from
the spec sentence: the value at the column's announced position, or the
empty string when the column was not announced): `c` resolves to
`fields[i+1]` when `c` is the `i`-th announced column name, else to `""`. -/
def headerLabelValue (columnNames fields : List String) (c : String) : String :=
  match columnNames.findIdx? (fun c2 => c2 == c) with
  | some i => fields.getD (i + 1) ""
  | none => ""

/-- Spec-side description of the client-decoder line forms that do not
abort with the unsupported-key error: the `END` footer, the banner, an
`Updated` line with two fields, and a known traffic-counter name with two
fields. -/
def clientRecognizedLine (fields : List String) : Prop :=
  (fields.headD "" = "END" ∧ fields.length = 1) ∨
  (fields.headD "" = "OpenVPN STATISTICS" ∧ fields.length = 1) ∨
  (fields.headD "" = "Updated" ∧ fields.length = 2) ∨
  ((alookup openvpnClientDescs (fields.headD "")).isSome ∧ fields.length = 2)

instance (fields : List String) : Decidable (clientRecognizedLine fields) := by
  unfold clientRecognizedLine
  infer_instance

/-! ## Basic lemmas about the helpers -/

theorem contains_iff_mem (l : List String) (e : String) :
    contains l e = true ↔ e ∈ l := by
  simp only [contains, List.any_eq_true, decide_eq_true_eq]
  exact ⟨fun ⟨x, hx, he⟩ => he ▸ hx, fun h => ⟨e, h, rfl⟩⟩

theorem subslice_append_self (l x : List String) : subslice l (x ++ l) = true := by
  unfold subslice
  rw [if_neg]
  · simp only [List.all_eq_true]
    intro s hs
    exact (contains_iff_mem _ _).mpr (List.mem_append_right x hs)
  · simp

theorem recordedFor_set_same (m : List (OpenvpnServerHeaderField × List String))
    (k : OpenvpnServerHeaderField) (v : List String) :
    recordedFor (recordedSet m k v) k = v := by
  simp [recordedFor, recordedSet]

theorem recordedFor_set_ne (m : List (OpenvpnServerHeaderField × List String))
    (k k' : OpenvpnServerHeaderField) (v : List String) (h : k' ≠ k) :
    recordedFor (recordedSet m k' v) k = recordedFor m k := by
  simp [recordedFor, recordedSet, h]

/-- A lookup hit in the server directive table is one of its two rows. -/
theorem openvpnServerHeaders_lookup {ig : Bool} {k : String}
    {h : OpenvpnServerHeader}
    (hl : alookup (openvpnServerHeaders ig) k = some h) :
    (k = "CLIENT_LIST" ∧
      h = ⟨serverHeaderClientLabelColumns ig,
           [⟨"Bytes Received", .clientReceivedBytes, .counterValue⟩,
            ⟨"Bytes Sent", .clientSentBytes, .counterValue⟩]⟩) ∨
    (k = "ROUTING_TABLE" ∧
      h = ⟨serverHeaderRoutingLabelColumns ig,
           [⟨"Last Ref (time_t)", .routeLastRefTime, .gaugeValue⟩]⟩) := by
  by_cases h1 : ("CLIENT_LIST" : String) = k
  · refine Or.inl ⟨h1.symm, ?_⟩
    simp only [openvpnServerHeaders, alookup, if_pos h1] at hl
    exact (Option.some.inj hl).symm
  · by_cases h2 : ("ROUTING_TABLE" : String) = k
    · refine Or.inr ⟨h2.symm, ?_⟩
      simp only [openvpnServerHeaders, alookup, if_neg h1, if_pos h2] at hl
      exact (Option.some.inj hl).symm
    · simp only [openvpnServerHeaders, alookup, if_neg h1, if_neg h2] at hl
      cases hl

/-- When `fields[0]` hits the directive table, the scan-loop iteration is
the data-record branch. -/
theorem serverLineStep_eq_dataRecord {ig : Bool} {p : String}
    {st : ServerScanState} {fields : List String} {header : OpenvpnServerHeader}
    (hl : alookup (openvpnServerHeaders ig) (fields.headD "") = some header) :
    serverLineStep ig p st fields = serverDataRecord p header st fields := by
  rcases openvpnServerHeaders_lookup hl with ⟨hk, hh⟩ | ⟨hk, hh⟩
  · subst hh
    have hk' : fields.head?.getD "" = "CLIENT_LIST" := by
      simpa [List.headD_eq_head?] using hk
    simp [serverLineStep, hk', alookup, openvpnServerHeaders]
  · subst hh
    have hk' : fields.head?.getD "" = "ROUTING_TABLE" := by
      simpa [List.headD_eq_head?] using hk
    simp [serverLineStep, hk', alookup, openvpnServerHeaders]

theorem bumpConnected_headersFound (f0 : String) (st : ServerScanState) :
    (bumpConnected f0 st).headersFound = st.headersFound := by
  unfold bumpConnected; split <;> rfl

theorem bumpConnected_recordedMetrics (f0 : String) (st : ServerScanState) :
    (bumpConnected f0 st).recordedMetrics = st.recordedMetrics := by
  unfold bumpConnected; split <;> rfl

theorem bumpConnected_num (f0 : String) (st : ServerScanState) :
    (bumpConnected f0 st).numberConnectedClient =
      st.numberConnectedClient + (if f0 = "CLIENT_LIST" then 1 else 0) := by
  unfold bumpConnected; split <;> simp_all

/-! ## Lemmas about the metric-emission loop -/

/-- Every observation the emission loop produces carries the record's label
tuple, and its descriptor and value type come from one of the loop's metric
fields. -/
theorem processMetrics_mem {labels : List String}
    {cv : List (String × String)}
    {rec : List (OpenvpnServerHeaderField × List String)}
    {ms : List OpenvpnServerHeaderField} :
    ∀ o ∈ (processMetrics labels cv rec ms).1,
      o.labels = labels ∧ ∃ m ∈ ms, o.desc = m.Desc ∧ o.valueType = m.ValueType := by
  induction ms generalizing rec with
  | nil => simp [processMetrics]
  | cons m rest ih =>
    intro o ho
    rw [processMetrics] at ho
    cases h1 : alookup cv m.Column with
    | none =>
      simp only [h1] at ho
      obtain ⟨hl, m', hm', hd⟩ := ih o ho
      exact ⟨hl, m', List.mem_cons_of_mem _ hm', hd⟩
    | some v =>
      simp only [h1] at ho
      by_cases h2 : subslice labels (recordedFor rec m) = true
      · rw [if_pos h2] at ho
        obtain ⟨hl, m', hm', hd⟩ := ih o ho
        exact ⟨hl, m', List.mem_cons_of_mem _ hm', hd⟩
      · rw [if_neg h2] at ho
        cases h3 : goParseFloat v with
        | none => simp only [h3] at ho; simp at ho
        | some q =>
          simp only [h3] at ho
          simp only [List.mem_cons] at ho
          rcases ho with rfl | ho
          · exact ⟨rfl, m, List.mem_cons_self _ _, rfl, rfl⟩
          · obtain ⟨hl, m', hm', hd⟩ := ih o ho
            exact ⟨hl, m', List.mem_cons_of_mem _ hm', hd⟩

/-- The emission loop only appends the current label tuple to the recorded
pools, so a pool that already subsumes the tuple still does afterwards. -/
theorem processMetrics_preserves_subslice {labels : List String}
    {cv : List (String × String)}
    {rec : List (OpenvpnServerHeaderField × List String)}
    {ms : List OpenvpnServerHeaderField} {k : OpenvpnServerHeaderField}
    (h : subslice labels (recordedFor rec k) = true) :
    subslice labels (recordedFor (processMetrics labels cv rec ms).2.2 k) = true := by
  induction ms generalizing rec with
  | nil => simpa [processMetrics]
  | cons m rest ih =>
    rw [processMetrics]
    cases h1 : alookup cv m.Column with
    | none => simp only; exact ih h
    | some v =>
      simp only
      by_cases h2 : subslice labels (recordedFor rec m) = true
      · rw [if_pos h2]; exact ih h
      · rw [if_neg h2]
        cases h3 : goParseFloat v with
        | none => simpa using h
        | some q =>
          simp only
          apply ih
          by_cases hk : m = k
          · subst hk
            rw [recordedFor_set_same]
            exact subslice_append_self _ _
          · rw [recordedFor_set_ne _ _ _ _ hk]; exact h

/-- Re-running the emission loop on a state it has just produced (with the
same label tuple) emits nothing and leaves the pools unchanged: every metric
it emitted had its pool extended by the tuple, and every metric it
suppressed stays suppressed. -/
theorem processMetrics_idem {labels : List String}
    {cv : List (String × String)}
    {rec : List (OpenvpnServerHeaderField × List String)}
    {ms : List OpenvpnServerHeaderField}
    (h : (processMetrics labels cv rec ms).2.1 = none) :
    processMetrics labels cv (processMetrics labels cv rec ms).2.2 ms =
      ([], none, (processMetrics labels cv rec ms).2.2) := by
  induction ms generalizing rec with
  | nil => simp [processMetrics]
  | cons m rest ih =>
    cases h1 : alookup cv m.Column with
    | none =>
      have hR : processMetrics labels cv rec (m :: rest) =
          processMetrics labels cv rec rest := by
        rw [processMetrics]; simp only [h1]
      rw [hR] at h ⊢
      rw [processMetrics]; simp only [h1]
      exact ih h
    | some v =>
      by_cases h2 : subslice labels (recordedFor rec m) = true
      · have hR : processMetrics labels cv rec (m :: rest) =
            processMetrics labels cv rec rest := by
          rw [processMetrics]; simp only [h1]; rw [if_pos h2]
        rw [hR] at h ⊢
        rw [processMetrics]; simp only [h1]
        rw [if_pos (processMetrics_preserves_subslice h2)]
        exact ih h
      · cases h3 : goParseFloat v with
        | none =>
          exfalso
          rw [processMetrics] at h
          simp only [h1] at h
          rw [if_neg h2] at h
          simp only [h3] at h
          cases h
        | some q =>
          have hR2 : (processMetrics labels cv rec (m :: rest)).2.1 =
                (processMetrics labels cv
                  (recordedSet rec m (recordedFor rec m ++ labels)) rest).2.1 ∧
              (processMetrics labels cv rec (m :: rest)).2.2 =
                (processMetrics labels cv
                  (recordedSet rec m (recordedFor rec m ++ labels)) rest).2.2 := by
            rw [processMetrics]; simp only [h1]; rw [if_neg h2]; simp only [h3]
            simp
          rw [hR2.1] at h
          rw [hR2.2]
          rw [processMetrics]; simp only [h1]
          have hsub : subslice labels
              (recordedFor
                (processMetrics labels cv
                  (recordedSet rec m (recordedFor rec m ++ labels)) rest).2.2 m)
                = true := by
            apply processMetrics_preserves_subslice
            rw [recordedFor_set_same]
            exact subslice_append_self _ _
          rw [if_pos hsub]
          exact ih h

/-! ## Lemmas about one scan-loop iteration -/

theorem lookup_CLIENT_LIST (ig : Bool) :
    alookup (openvpnServerHeaders ig) "CLIENT_LIST" =
      some ⟨serverHeaderClientLabelColumns ig,
        [⟨"Bytes Received", .clientReceivedBytes, .counterValue⟩,
         ⟨"Bytes Sent", .clientSentBytes, .counterValue⟩]⟩ := by
  simp [openvpnServerHeaders, alookup]

theorem serverDataRecord_headersFound (p : String) (header : OpenvpnServerHeader)
    (st : ServerScanState) (fields : List String) :
    (serverDataRecord p header st fields).2.2.headersFound = st.headersFound := by
  rw [serverDataRecord]
  cases hhf : alookup (bumpConnected (fields.headD "") st).headersFound
      (fields.headD "") with
  | none => simp only [hhf]; exact bumpConnected_headersFound _ _
  | some cols =>
    simp only [hhf]
    by_cases hlen : fields.length ≠ cols.length + 1
    · rw [if_pos hlen]; exact bumpConnected_headersFound _ _
    · rw [if_neg hlen]; exact bumpConnected_headersFound _ _

theorem serverDataRecord_num (p : String) (header : OpenvpnServerHeader)
    (st : ServerScanState) (fields : List String) :
    (serverDataRecord p header st fields).2.2.numberConnectedClient =
      (bumpConnected (fields.headD "") st).numberConnectedClient := by
  rw [serverDataRecord]
  cases hhf : alookup (bumpConnected (fields.headD "") st).headersFound
      (fields.headD "") with
  | none => simp only [hhf]
  | some cols =>
    simp only [hhf]
    by_cases hlen : fields.length ≠ cols.length + 1
    · rw [if_pos hlen]
    · rw [if_neg hlen]

/-- Every observation a data record emits has a descriptor and value type
from the directive's metric fields. -/
theorem serverDataRecord_mem {p : String} {header : OpenvpnServerHeader}
    {st : ServerScanState} {fields : List String} :
    ∀ o ∈ (serverDataRecord p header st fields).1,
      ∃ m ∈ header.Metrics, o.desc = m.Desc ∧ o.valueType = m.ValueType := by
  intro o ho
  rw [serverDataRecord] at ho
  cases hhf : alookup (bumpConnected (fields.headD "") st).headersFound
      (fields.headD "") with
  | none => simp only [hhf] at ho; simp at ho
  | some cols =>
    simp only [hhf] at ho
    by_cases hlen : fields.length ≠ cols.length + 1
    · rw [if_pos hlen] at ho; simp at ho
    · rw [if_neg hlen] at ho
      exact (processMetrics_mem o ho).2

/-- Every observation a data record emits carries the label tuple built
from the announced columns. -/
theorem serverDataRecord_labels {p : String} {header : OpenvpnServerHeader}
    {st : ServerScanState} {fields columnNames : List String}
    (hhf : alookup st.headersFound (fields.headD "") = some columnNames) :
    ∀ o ∈ (serverDataRecord p header st fields).1,
      o.labels = p :: header.LabelColumns.map (fun c =>
        (alookup (buildColumnValues header.LabelColumns columnNames fields) c).getD "") := by
  intro o ho
  rw [serverDataRecord] at ho
  have hbf : alookup (bumpConnected (fields.headD "") st).headersFound
      (fields.headD "") = some columnNames := by
    rw [bumpConnected_headersFound]; exact hhf
  simp only [hbf] at ho
  by_cases hlen : fields.length ≠ columnNames.length + 1
  · rw [if_pos hlen] at ho; simp at ho
  · rw [if_neg hlen] at ho
    exact (processMetrics_mem o ho).1

theorem serverLineStep_headersFound {ig : Bool} {p : String}
    {st : ServerScanState} {fields : List String} :
    (serverLineStep ig p st fields).2.2.headersFound = st.headersFound ∨
    ((fields.headD "" = "HEADER" ∧ fields.length > 2) ∧
      (serverLineStep ig p st fields).2.2.headersFound =
        (fields.getD 1 "", fields.drop 2) :: st.headersFound) := by
  rw [serverLineStep]
  split_ifs with h1 h2 h3 h4 h5
  · exact Or.inl rfl
  · exact Or.inl rfl
  · exact Or.inr ⟨h3, rfl⟩
  · cases hp : goParseFloat (fields.getD 2 "") <;> simp only [hp] <;>
      exact Or.inl trivial
  · exact Or.inl rfl
  · cases hl : alookup (openvpnServerHeaders ig) (fields.headD "") with
    | none => simp only [hl]; exact Or.inl trivial
    | some header =>
      simp only [hl]
      exact Or.inl (serverDataRecord_headersFound _ _ _ _)

theorem serverLineStep_num {ig : Bool} {p : String}
    {st : ServerScanState} {fields : List String} :
    (serverLineStep ig p st fields).2.2.numberConnectedClient =
      st.numberConnectedClient +
        (if fields.headD "" = "CLIENT_LIST" then 1 else 0) := by
  by_cases hc : fields.headD "" = "CLIENT_LIST"
  · rw [if_pos hc]
    rw [serverLineStep_eq_dataRecord (by rw [hc]; exact lookup_CLIENT_LIST ig)]
    rw [serverDataRecord_num, bumpConnected_num, if_pos hc]
  · rw [if_neg hc]
    rw [serverLineStep]
    split_ifs with h1 h2 h3 h4 h5
    · rfl
    · rfl
    · rfl
    · cases hp : goParseFloat (fields.getD 2 "") <;> simp only [hp] <;> rfl
    · rfl
    · cases hl : alookup (openvpnServerHeaders ig) (fields.headD "") with
      | none => simp only [hl]; rfl
      | some header =>
        simp only [hl]
        rw [serverDataRecord_num, bumpConnected_num, if_neg hc]

/-- The scan loop never emits the connected-clients gauge from a line; that
gauge is only produced after the loop. -/
theorem serverLineStep_no_connected {ig : Bool} {p : String}
    {st : ServerScanState} {fields : List String} :
    ∀ o ∈ (serverLineStep ig p st fields).1,
      o.desc ≠ MetricDesc.connectedClients := by
  intro o ho
  rw [serverLineStep] at ho
  split_ifs at ho with h1 h2 h3 h4 h5
  · simp at ho
  · simp at ho
  · simp at ho
  · cases hp : goParseFloat (fields.getD 2 "") <;> simp only [hp] at ho
    · simp at ho
    · simp only [List.mem_singleton] at ho
      subst ho; simp
  · simp at ho
  · cases hl : alookup (openvpnServerHeaders ig) (fields.headD "") with
    | none => simp only [hl] at ho; simp at ho
    | some header =>
      simp only [hl] at ho
      obtain ⟨m, hm, hd, _⟩ := serverDataRecord_mem o ho
      rcases openvpnServerHeaders_lookup hl with ⟨_, hh⟩ | ⟨_, hh⟩ <;> subst hh <;>
        simp only [List.mem_cons, List.mem_singleton, List.not_mem_nil,
          or_false] at hm
      · rcases hm with rfl | rfl <;> simp [hd]
      · rcases hm with rfl | h' <;> simp_all [hd]

/-! ## Lemmas about the scan loops -/

/-- Splitting a scan: if the first chunk runs without error, the loop
continues into the second chunk from the resulting state. -/
theorem serverSteps_append {ig : Bool} {p : String} {sep : Char} {st : ServerScanState}
    {l1 l2 : List String}
    (h : (serverSteps ig p sep st l1).2.1 = none) :
    serverSteps ig p sep st (l1 ++ l2) =
      ((serverSteps ig p sep st l1).1 ++
        (serverSteps ig p sep (serverSteps ig p sep st l1).2.2 l2).1,
       (serverSteps ig p sep (serverSteps ig p sep st l1).2.2 l2).2.1,
       (serverSteps ig p sep (serverSteps ig p sep st l1).2.2 l2).2.2) := by
  induction l1 generalizing st with
  | nil => simp [serverSteps]
  | cons l rest ih =>
    cases hr : (serverLineStep ig p st (goSplit sep l)).2.1 with
    | some e =>
      exfalso
      rw [serverSteps] at h
      simp only [hr] at h
      cases h
    | none =>
      rw [serverSteps] at h
      simp only [hr] at h
      rw [List.cons_append, serverSteps, serverSteps]
      simp only [hr]
      rw [ih h]
      simp [List.append_assoc]

/-- The loop part of the server decoder never emits the connected-clients
gauge. -/
theorem serverSteps_no_connected {ig : Bool} {p : String} {sep : Char}
    {st : ServerScanState} {lines : List String} :
    ∀ o ∈ (serverSteps ig p sep st lines).1,
      o.desc ≠ MetricDesc.connectedClients := by
  induction lines generalizing st with
  | nil => simp [serverSteps]
  | cons l rest ih =>
    intro o ho
    rw [serverSteps] at ho
    cases hr : (serverLineStep ig p st (goSplit sep l)).2.1 with
    | some e =>
      simp only [hr] at ho
      exact serverLineStep_no_connected o ho
    | none =>
      simp only [hr] at ho
      rcases List.mem_append.mp ho with hm | hm
      · exact serverLineStep_no_connected o hm
      · exact ih o hm

/-- On an error-free run the connected-client counter advances by the
number of `CLIENT_LIST` data lines. -/
theorem serverSteps_num {ig : Bool} {p : String} {sep : Char} {st : ServerScanState}
    {lines : List String}
    (h : (serverSteps ig p sep st lines).2.1 = none) :
    (serverSteps ig p sep st lines).2.2.numberConnectedClient =
      st.numberConnectedClient +
        lines.countP (fun l => decide ((goSplit sep l).headD "" = "CLIENT_LIST")) := by
  induction lines generalizing st with
  | nil => simp [serverSteps]
  | cons l rest ih =>
    rw [serverSteps] at h ⊢
    cases hr : (serverLineStep ig p st (goSplit sep l)).2.1 with
    | some e => simp only [hr] at h; cases h
    | none =>
      simp only [hr] at h ⊢
      rw [ih h, serverLineStep_num, List.countP_cons]
      by_cases hc : (goSplit sep l).headD "" = "CLIENT_LIST" <;> simp [hc] <;> omega

/-- A `HEADER` directive never announced in a chunk of lines leaves the
corresponding record type unannounced. -/
theorem serverSteps_headersFound_none {ig : Bool} {p ty : String} {sep : Char}
    {st : ServerScanState} {lines : List String}
    (h0 : alookup st.headersFound ty = none)
    (hpre : ∀ l ∈ lines, ¬((goSplit sep l).headD "" = "HEADER" ∧
        (goSplit sep l).getD 1 "" = ty)) :
    alookup (serverSteps ig p sep st lines).2.2.headersFound ty = none := by
  induction lines generalizing st with
  | nil => simpa [serverSteps]
  | cons l rest ih =>
    have hstep : alookup (serverLineStep ig p st (goSplit sep l)).2.2.headersFound ty
        = none := by
      rcases @serverLineStep_headersFound ig p st (goSplit sep l) with
        hsame | ⟨⟨hhd, _⟩, hcons⟩
      · rw [hsame]; exact h0
      · rw [hcons]
        have hne : (goSplit sep l).getD 1 "" ≠ ty := by
          intro hcontra
          exact hpre l (List.mem_cons_self _ _) ⟨hhd, hcontra⟩
        simp only [alookup, if_neg hne]
        exact h0
    rw [serverSteps]
    cases hr : (serverLineStep ig p st (goSplit sep l)).2.1 with
    | some e => simp only [hr]; exact hstep
    | none =>
      simp only [hr]
      exact ih hstep (fun l' hl' => hpre l' (List.mem_cons_of_mem _ hl'))

/-- Splitting a client scan after an error-free chunk. -/
theorem clientSteps_append {p : String} {l1 l2 : List String}
    (h : (clientSteps p l1).2 = none) :
    clientSteps p (l1 ++ l2) =
      ((clientSteps p l1).1 ++ (clientSteps p l2).1, (clientSteps p l2).2) := by
  induction l1 with
  | nil => simp [clientSteps]
  | cons l rest ih =>
    cases hr : (clientLineStep p (goSplit (Char.ofNat 44) l)).2 with
    | some e =>
      exfalso
      rw [clientSteps] at h
      simp only [hr] at h
      cases h
    | none =>
      rw [clientSteps] at h
      simp only [hr] at h
      rw [List.cons_append, clientSteps, clientSteps]
      simp only [hr]
      rw [ih h]
      simp [List.append_assoc]

theorem lookup_ROUTING_TABLE (ig : Bool) :
    alookup (openvpnServerHeaders ig) "ROUTING_TABLE" =
      some ⟨serverHeaderRoutingLabelColumns ig,
        [⟨"Last Ref (time_t)", .routeLastRefTime, .gaugeValue⟩]⟩ := by
  simp [openvpnServerHeaders, alookup]

/-- A data record whose type has no announced header fails with the
sequence error, after the connected-client increment. -/
theorem serverDataRecord_no_header {p : String} {header : OpenvpnServerHeader}
    {st : ServerScanState} {fields : List String}
    (hhf : alookup st.headersFound (fields.headD "") = none) :
    serverDataRecord p header st fields =
      ([], some (.sequenceError (fields.headD "")),
        bumpConnected (fields.headD "") st) := by
  rw [serverDataRecord]
  have hbf : alookup (bumpConnected (fields.headD "") st).headersFound
      (fields.headD "") = none := by
    rw [bumpConnected_headersFound]; exact hhf
  simp only [hbf]

/-! ## Claim theorems -/

/-- C2: a `CLIENT_LIST` or `ROUTING_TABLE` data line reached before any
`HEADER` line for that exact record type makes the server decode of the
whole input fail with the sequence error naming that directive
(`"%s should be preceded by HEADERS"`); the line is never silently
skipped. -/
theorem openvpn_C2_data_record_before_header_fails
    (ig : Bool) (p : String) (sep : Char) (pre : List String) (bad : String)
    (suf : List String) (ty : String)
    (hty : ty = "CLIENT_LIST" ∨ ty = "ROUTING_TABLE")
    (hbad : (goSplit sep bad).headD "" = ty)
    (hpre_ok : (serverSteps ig p sep initServerScanState pre).2.1 = none)
    (hpre : ∀ l ∈ pre, ¬((goSplit sep l).headD "" = "HEADER" ∧
        (goSplit sep l).getD 1 "" = ty)) :
    (collectServerLines ig p sep (pre ++ bad :: suf)).2 =
      some (.sequenceError ty) := by
  have h0 : alookup initServerScanState.headersFound ty = none := rfl
  have hnone := @serverSteps_headersFound_none ig p ty sep initServerScanState pre h0 hpre
  have hl : alookup (openvpnServerHeaders ig) ((goSplit sep bad).headD "") ≠ none := by
    rw [hbad]
    rcases hty with rfl | rfl
    · rw [lookup_CLIENT_LIST]; simp
    · rw [lookup_ROUTING_TABLE]; simp
  obtain ⟨header, hlh⟩ := Option.ne_none_iff_exists'.mp hl
  have hhf : alookup (serverSteps ig p sep initServerScanState pre).2.2.headersFound
      ((goSplit sep bad).headD "") = none := by rw [hbad]; exact hnone
  have hstep : serverLineStep ig p
        (serverSteps ig p sep initServerScanState pre).2.2 (goSplit sep bad) =
      ([], some (.sequenceError ty),
        bumpConnected ty (serverSteps ig p sep initServerScanState pre).2.2) := by
    rw [serverLineStep_eq_dataRecord hlh, serverDataRecord_no_header hhf, hbad]
  rw [collectServerLines, serverSteps_append hpre_ok]
  rw [serverSteps]
  simp only [hstep]

/-- C3: a server decode that finishes without error emits exactly one
connected-clients gauge, as the final observation, labeled only by the
source, and its value is the number of `CLIENT_LIST` data lines in the
input — independent of any dedupe suppression, which never touches the
counter. -/
theorem openvpn_C3_connected_clients_gauge
    (ig : Bool) (p : String) (sep : Char) (lines : List String)
    (obs : List Observation)
    (h : collectServerLines ig p sep lines = (obs, none)) :
    ∃ obs2, obs = obs2 ++
        [⟨.connectedClients, .gaugeValue,
          ((lines.countP fun l =>
            decide ((goSplit sep l).headD "" = "CLIENT_LIST")) : ℚ), [p]⟩] ∧
      ∀ o ∈ obs2, o.desc ≠ MetricDesc.connectedClients := by
  rw [collectServerLines] at h
  cases hr : (serverSteps ig p sep initServerScanState lines).2.1 with
  | some e => simp only [hr] at h; cases h
  | none =>
    simp only [hr] at h
    have h1 := congrArg Prod.fst h
    simp only at h1
    refine ⟨(serverSteps ig p sep initServerScanState lines).1, ?_, ?_⟩
    · have hnum := @serverSteps_num ig p sep initServerScanState lines hr
      rw [show initServerScanState.numberConnectedClient = 0 from rfl] at hnum
      rw [← h1, hnum]
      simp
    · intro o ho
      exact serverSteps_no_connected o ho

/-- C7: a data record of a known type with a prior `HEADER` whose
separator-split field count is not the announced column count plus one
makes the iteration fail with the schema error, emitting no observation
for that record. -/
theorem openvpn_C7_field_count_mismatch
    (ig : Bool) (p : String) (st : ServerScanState) (fields : List String)
    (header : OpenvpnServerHeader) (columnNames : List String)
    (hl : alookup (openvpnServerHeaders ig) (fields.headD "") = some header)
    (hhf : alookup st.headersFound (fields.headD "") = some columnNames)
    (hlen : fields.length ≠ columnNames.length + 1) :
    (serverLineStep ig p st fields).1 = [] ∧
      (serverLineStep ig p st fields).2.1 =
        some (.schemaError (fields.headD "")) := by
  rw [serverLineStep_eq_dataRecord hl, serverDataRecord]
  have hbf : alookup (bumpConnected (fields.headD "") st).headersFound
      (fields.headD "") = some columnNames := by
    rw [bumpConnected_headersFound]; exact hhf
  simp only [hbf]
  rw [if_pos hlen]
  exact ⟨rfl, rfl⟩

/-- C10: an empty line (splitting to the single empty field) aborts both
the server and the client decoder with the unsupported-key error naming
the empty string, at the failing iteration and for the whole decode; blank
lines are never tolerated. -/
theorem openvpn_C10_empty_line :
    (∀ (ig : Bool) (p : String) (sep : Char) (st : ServerScanState),
      serverLineStep ig p st (goSplit sep "") =
        ([], some (.unsupportedKey ""), st)) ∧
    (∀ p : String, clientLineStep p (goSplit (Char.ofNat 44) "") =
      ([], some (.unsupportedKey ""))) ∧
    (∀ (ig : Bool) (p : String) (sep : Char) (pre suf : List String),
      (serverSteps ig p sep initServerScanState pre).2.1 = none →
      (collectServerLines ig p sep (pre ++ "" :: suf)).2 =
        some (.unsupportedKey "")) ∧
    (∀ (p : String) (pre suf : List String),
      (clientSteps p pre).2 = none →
      (collectClientLines p (pre ++ "" :: suf)).2 =
        some (.unsupportedKey "")) := by
  have hempty : ∀ sep : Char, goSplit sep "" = [""] := fun _ => rfl
  have hserver : ∀ (ig : Bool) (p : String) (sep : Char) (st : ServerScanState),
      serverLineStep ig p st (goSplit sep "") =
        ([], some (.unsupportedKey ""), st) := by
    intro ig p sep st
    rw [hempty]
    simp [serverLineStep, alookup, openvpnServerHeaders]
  have hclient : ∀ p : String, clientLineStep p (goSplit (Char.ofNat 44) "") =
      ([], some (.unsupportedKey "")) := by
    intro p
    rw [hempty]
    simp [clientLineStep, alookup, openvpnClientDescs]
  refine ⟨hserver, hclient, ?_, ?_⟩
  · intro ig p sep pre suf hok
    rw [collectServerLines, serverSteps_append hok, serverSteps]
    simp only [hserver ig p sep]
  · intro p pre suf hok
    rw [collectClientLines, clientSteps_append hok, clientSteps]
    simp only [hclient p]

/-- C9: the first decode error terminates a source's decode immediately:
for both decoders, if a prefix of the input scans cleanly and the next
line errors, the whole decode returns exactly the observations emitted up
to and within the erroring line, with that error, unaffected by any
suffix; no further observation — in particular no connected-clients
gauge — follows, while earlier emissions are retained. -/
theorem openvpn_C9_first_error_aborts :
    (∀ (ig : Bool) (p : String) (sep : Char) (pre : List String) (bad : String)
        (suf : List String) (obs : List Observation) (st : ServerScanState)
        (obs2 : List Observation) (e : GoError) (st2 : ServerScanState),
      serverSteps ig p sep initServerScanState pre = (obs, none, st) →
      serverLineStep ig p st (goSplit sep bad) = (obs2, some e, st2) →
      collectServerLines ig p sep (pre ++ bad :: suf) = (obs ++ obs2, some e) ∧
        ∀ o ∈ obs ++ obs2, o.desc ≠ MetricDesc.connectedClients) ∧
    (∀ (p : String) (pre : List String) (bad : String) (suf : List String)
        (obs obs2 : List Observation) (e : GoError),
      clientSteps p pre = (obs, none) →
      clientLineStep p (goSplit (Char.ofNat 44) bad) = (obs2, some e) →
      collectClientLines p (pre ++ bad :: suf) = (obs ++ obs2, some e)) := by
  constructor
  · intro ig p sep pre bad suf obs st obs2 e st2 hpre hbad
    have hok : (serverSteps ig p sep initServerScanState pre).2.1 = none := by
      rw [hpre]
    constructor
    · rw [collectServerLines, serverSteps_append hok, serverSteps]
      rw [hpre]
      simp only [hbad]
    · intro o ho
      rcases List.mem_append.mp ho with hm | hm
      · have : o ∈ (serverSteps ig p sep initServerScanState pre).1 := by
          rw [hpre]; exact hm
        exact serverSteps_no_connected o this
      · have : o ∈ (serverLineStep ig p st (goSplit sep bad)).1 := by
          rw [hbad]; exact hm
        exact serverLineStep_no_connected o this
  · intro p pre bad suf obs obs2 e hpre hbad
    have hok : (clientSteps p pre).2 = none := by rw [hpre]
    rw [collectClientLines, clientSteps_append hok, clientSteps]
    rw [hpre, hbad]

/-- C4: the format detector classifies by fixed prefixes of the first at
most 18 bytes in priority order — `"TITLE,"` selects the comma-separated
server decoder, `"TITLE\t"` the tab-separated one, `"OpenVPN STATISTICS"`
the client decoder — and when none matches the decode fails with the
format error carrying those leading bytes and emits nothing. -/
theorem openvpn_C4_format_detection (ig : Bool) (p s : String) :
    (goHasPrefix (peekBuf s) "TITLE," = true →
      collectStatusFromReader ig p s =
        collectServerLines ig p (Char.ofNat 44) (goScanLines s)) ∧
    (goHasPrefix (peekBuf s) "TITLE," = false →
      goHasPrefix (peekBuf s) "TITLE\t" = true →
      collectStatusFromReader ig p s =
        collectServerLines ig p (Char.ofNat 9) (goScanLines s)) ∧
    (goHasPrefix (peekBuf s) "TITLE," = false →
      goHasPrefix (peekBuf s) "TITLE\t" = false →
      goHasPrefix (peekBuf s) "OpenVPN STATISTICS" = true →
      collectStatusFromReader ig p s =
        collectClientLines p (goScanLines s)) ∧
    (goHasPrefix (peekBuf s) "TITLE," = false →
      goHasPrefix (peekBuf s) "TITLE\t" = false →
      goHasPrefix (peekBuf s) "OpenVPN STATISTICS" = false →
      collectStatusFromReader ig p s =
        ([], some (.formatError (peekBuf s)))) := by
  refine ⟨?_, ?_, ?_, ?_⟩
  · intro h1
    simp only [collectStatusFromReader]
    rw [if_pos h1]
  · intro h1 h2
    simp only [collectStatusFromReader]
    rw [if_neg (by simp [h1]), if_pos h2]
  · intro h1 h2 h3
    simp only [collectStatusFromReader]
    rw [if_neg (by simp [h1]), if_neg (by simp [h2]), if_pos h3]
  · intro h1 h2 h3
    simp only [collectStatusFromReader]
    rw [if_neg (by simp [h1]), if_neg (by simp [h2]), if_neg (by simp [h3])]

/-- C1 counterexample: with the full label set, after one `CLIENT_LIST`
row with labels `[p, alice, 1, ra, va, bob]`, a second row whose label
tuple `[p, bob, 1, ra, va, alice]` differs from every previously emitted
tuple is nevertheless suppressed — the decode emits only the first row's
byte-counter pair (plus the final gauge), refuting the claim that a record
with a fresh label tuple is never suppressed. -/
theorem openvpn_C1_counterexample :
    collectServerLines false "p" (Char.ofNat 44)
        ["HEADER,CLIENT_LIST,Common Name,Connected Since (time_t),Real Address,Virtual Address,Username,Bytes Received,Bytes Sent",
         "CLIENT_LIST,alice,1,ra,va,bob,10,20",
         "CLIENT_LIST,bob,1,ra,va,alice,30,40"] =
      ([⟨.clientReceivedBytes, .counterValue, 10, ["p", "alice", "1", "ra", "va", "bob"]⟩,
        ⟨.clientSentBytes, .counterValue, 20, ["p", "alice", "1", "ra", "va", "bob"]⟩,
        ⟨.connectedClients, .gaugeValue, 2, ["p"]⟩], none) ∧
      (["p", "bob", "1", "ra", "va", "alice"] : List String) ≠
        ["p", "alice", "1", "ra", "va", "bob"] := by decide

/-- C1 amended: dedupe works on a pooled list of label values per metric
(`subslice`), not on identical tuples; consequently reprocessing the very
same data line from the state the first processing produced emits nothing
and only bumps the connected-client counter, so two identical rows yield
exactly one emission pair. -/
theorem openvpn_C1_amended (ig : Bool) (p : String) (st : ServerScanState)
    (fields : List String) (header : OpenvpnServerHeader)
    (obs : List Observation) (st' : ServerScanState)
    (hl : alookup (openvpnServerHeaders ig) (fields.headD "") = some header)
    (hrun : serverLineStep ig p st fields = (obs, none, st')) :
    serverLineStep ig p st' fields =
      ([], none, bumpConnected (fields.headD "") st') := by
  rw [serverLineStep_eq_dataRecord hl] at hrun
  rw [serverLineStep_eq_dataRecord hl]
  rw [serverDataRecord] at hrun
  cases hhf : alookup (bumpConnected (fields.headD "") st).headersFound
      (fields.headD "") with
  | none => simp only [hhf] at hrun; cases hrun
  | some columnNames =>
    simp only [hhf] at hrun
    by_cases hlen : fields.length ≠ columnNames.length + 1
    · rw [if_pos hlen] at hrun; cases hrun
    · rw [if_neg hlen] at hrun
      have hobs := congrArg Prod.fst hrun
      have herr := congrArg (fun t => t.2.1) hrun
      have hst := congrArg (fun t => t.2.2) hrun
      simp only at hobs herr hst
      rw [serverDataRecord]
      have hhf' : alookup (bumpConnected (fields.headD "") st').headersFound
          (fields.headD "") = some columnNames := by
        rw [bumpConnected_headersFound, ← hst]
        exact hhf
      simp only [hhf']
      rw [if_neg hlen]
      have hrec : (bumpConnected (fields.headD "") st').recordedMetrics =
          (processMetrics
            (p :: header.LabelColumns.map (fun c =>
              (alookup (buildColumnValues header.LabelColumns columnNames fields) c).getD ""))
            (buildColumnValues header.LabelColumns columnNames fields)
            (bumpConnected (fields.headD "") st).recordedMetrics
            header.Metrics).2.2 := by
        rw [bumpConnected_recordedMetrics, ← hst]
      rw [hrec]
      rw [processMetrics_idem herr]
      rw [← hrec]

/-- C8: in the client decoder, a line whose first comma-split field is one
of the nine traffic-counter names and which has exactly two fields parses
field 1 as a float and emits one counter observation labeled only by the
source (or fails with the parse error when non-numeric); and a line yields
the unsupported-key error naming its first field exactly when it matches
none of the recognized forms (`END`, the banner, `Updated` with two
fields, or a known counter name with two fields). -/
theorem openvpn_C8_client_lines :
    (∀ (p name v : String) (desc : MetricDesc) (q : ℚ),
      alookup openvpnClientDescs name = some desc →
      goParseFloat v = some q →
      clientLineStep p [name, v] = ([⟨desc, .counterValue, q, [p]⟩], none)) ∧
    (∀ (p name v : String) (desc : MetricDesc),
      alookup openvpnClientDescs name = some desc →
      goParseFloat v = none →
      clientLineStep p [name, v] = ([], some (.parseError v))) ∧
    (∀ (p : String) (fields : List String),
      (clientLineStep p fields).2 = some (.unsupportedKey (fields.headD "")) ↔
        ¬ clientRecognizedLine fields) := by
  have hupd : ∀ name : String, alookup openvpnClientDescs name ≠ none →
      name ≠ "Updated" := by
    intro name hl hcontra
    rw [hcontra] at hl
    exact hl (by decide)
  refine ⟨?_, ?_, ?_⟩
  · intro p name v desc q hl hq
    have hu := hupd name (by rw [hl]; simp)
    simp [clientLineStep, hu, hl, hq]
  · intro p name v desc hl hq
    have hu := hupd name (by rw [hl]; simp)
    simp [clientLineStep, hu, hl, hq]
  · intro p fields
    by_cases h1 : fields.head?.getD "" = "END" ∧ fields.length = 1
    · simp [clientLineStep, clientRecognizedLine, h1]
    · by_cases h2 : fields.head?.getD "" = "OpenVPN STATISTICS" ∧ fields.length = 1
      · simp [clientLineStep, clientRecognizedLine, h1, h2]
      · by_cases h3 : fields.head?.getD "" = "Updated" ∧ fields.length = 2
        · obtain ⟨hup, hlen2⟩ := h3
          obtain ⟨a, b, rfl⟩ := List.length_eq_two.mp hlen2
          cases hp : parseUpdatedTime b <;>
            simp_all [clientLineStep, clientRecognizedLine]
        · cases hl : alookup openvpnClientDescs (fields.head?.getD "") with
          | none =>
            simp [clientLineStep, clientRecognizedLine, h1, h2, h3, hl]
          | some d =>
            by_cases h4 : fields.length = 2
            · obtain ⟨a, b, rfl⟩ := List.length_eq_two.mp h4
              cases hp : goParseFloat b <;>
                simp_all [clientLineStep, clientRecognizedLine]
            · simp [clientLineStep, clientRecognizedLine, h1, h2, h3, h4, hl]

/-- C6 counterexample: an API instance object whose `title` value is a
number, not a string, makes `collectStatusFromApiInterface` end in a
runtime panic (the unchecked type assertion `categoryData.(string)`), not
in a returned error of any kind. -/
theorem openvpn_C6_counterexample :
    collectStatusFromApiInterface false "p" [("i1", .obj [("title", .num 5)])] =
      ([], .panicked) := by decide

/-- C6 amended: the API decoder does not return a schema error for
malformed structure — a top-level instance value of the wrong type is
silently skipped (the decode still succeeds and emits the
connected-clients gauge), and a wrong type at an inner expected key such
as `title` crashes the decode with a runtime panic. -/
theorem openvpn_C6_amended :
    (∀ (ig : Bool) (p id : String) (v : Jv), v.asObj = none →
      collectStatusFromApiInterface ig p [(id, v)] =
        ([⟨.connectedClients, .gaugeValue, 0, [p]⟩], .ok)) ∧
    (∀ (ig : Bool) (p id : String) (v : Jv), v.asString = none →
      collectStatusFromApiInterface ig p [(id, .obj [("title", v)])] =
        ([], .panicked)) := by
  constructor
  · intro ig p id v hv
    simp [collectStatusFromApiInterface, apiInstancesStep, apiInstanceStep, hv]
  · intro ig p id v hv
    simp [collectStatusFromApiInterface, apiInstancesStep, apiInstanceStep,
      apiCategoriesStep, apiCategoryStep, Jv.asObj, hv]

/-! ## Lemmas for the label-tuple claim -/

theorem foldl_cons_map {α β : Type} (f : α → β) :
    ∀ (l : List α) (acc : List β),
      l.foldl (fun m x => f x :: m) acc = (l.map f).reverse ++ acc := by
  intro l
  induction l with
  | nil => intro acc; simp
  | cons x xs ih =>
    intro acc
    simp only [List.foldl_cons, List.map_cons, List.reverse_cons]
    rw [ih (f x :: acc)]
    simp

theorem foldl_cons {α : Type} :
    ∀ (l : List α) (acc : List α),
      l.foldl (fun m x => x :: m) acc = l.reverse ++ acc := by
  intro l
  induction l with
  | nil => intro acc; simp
  | cons x xs ih =>
    intro acc
    simp only [List.foldl_cons, List.reverse_cons]
    rw [ih (x :: acc)]
    simp

theorem alookup_append {β : Type} (l1 l2 : List (String × β)) (k : String) :
    alookup (l1 ++ l2) k =
      match alookup l1 k with
      | some v => some v
      | none => alookup l2 k := by
  induction l1 with
  | nil => simp [alookup]
  | cons a rest ih =>
    by_cases hk : a.1 = k
    · simp [alookup, hk]
    · simp [alookup, hk, ih]

theorem alookup_eq_none_iff {β : Type} (l : List (String × β)) (k : String) :
    alookup l k = none ↔ k ∉ l.map Prod.fst := by
  induction l with
  | nil => simp [alookup]
  | cons a rest ih =>
    by_cases hk : a.1 = k
    · simp [alookup, hk]
    · simp [alookup, hk, ih, Ne.symm hk]

theorem alookup_reverse {β : Type} (l : List (String × β)) (k : String)
    (hnd : (l.map Prod.fst).Nodup) :
    alookup l.reverse k = alookup l k := by
  induction l with
  | nil => simp
  | cons a rest ih =>
    simp only [List.map_cons, List.nodup_cons] at hnd
    rw [List.reverse_cons, alookup_append]
    by_cases hk : a.1 = k
    · have hnone : alookup rest.reverse k = none := by
        rw [alookup_eq_none_iff]
        subst hk
        simpa using hnd.1
      rw [hnone]
      simp [alookup, hk]
    · rw [ih hnd.2]
      cases hr : alookup rest k with
      | some v => simp [alookup, hk, hr]
      | none => simp [alookup, hk, hr]

theorem alookup_zip_findIdx (cols vs : List String) (c : String) :
    alookup (cols.zip vs) c =
      (cols.findIdx? (fun c2 => c2 == c)).bind (fun i => vs.get? i) := by
  induction cols generalizing vs with
  | nil => simp [alookup]
  | cons a cols' ih =>
    cases vs with
    | nil =>
      simp only [List.zip_nil_right, alookup, List.findIdx?_cons]
      by_cases hk : a = c
      · simp [hk]
      · simp only [beq_iff_eq, hk, if_false, List.findIdx?_succ]
        cases hfi : cols'.findIdx? (fun c2 => c2 == c) <;> simp
    | cons b vs' =>
      rw [List.zip_cons_cons]
      by_cases hk : a = c
      · simp [alookup, hk, List.findIdx?_cons]
      · rw [show alookup ((a, b) :: cols'.zip vs') c = alookup (cols'.zip vs') c
            from by simp [alookup, hk]]
        rw [ih vs', List.findIdx?_cons]
        simp only [beq_iff_eq, hk, if_false, List.findIdx?_succ]
        cases hfi : cols'.findIdx? (fun c2 => c2 == c) <;> simp

theorem alookup_all_values {β : Type} (l : List (String × β)) (k : String)
    (v0 : β) (hall : ∀ p ∈ l, p.2 = v0) :
    (alookup l k).getD v0 = v0 := by
  induction l with
  | nil => simp [alookup]
  | cons a rest ih =>
    by_cases hk : a.1 = k
    · simp only [alookup, hk, if_pos rfl]
      simp [hall a (List.mem_cons_self _ _)]
    · simp only [alookup, if_neg hk]
      exact ih (fun p hp => hall p (List.mem_cons_of_mem _ hp))

/-- The column-value map built for a server data record resolves each
column as the spec describes: the field at one past the column's announced
position, else the empty string. -/
theorem buildColumnValues_lookup (labelCols columnNames fields : List String)
    (c : String) (hnodup : columnNames.Nodup)
    (hlen : fields.length = columnNames.length + 1) :
    (alookup (buildColumnValues labelCols columnNames fields) c).getD "" =
      headerLabelValue columnNames fields c := by
  simp only [buildColumnValues]
  rw [foldl_cons_map (fun c => ((c : String), ("" : String))) labelCols []]
  rw [foldl_cons]
  rw [alookup_append]
  have hkeys : ((columnNames.zip (fields.drop 1)).map Prod.fst).Nodup := by
    rw [List.map_fst_zip]
    · exact hnodup
    · simp [hlen]
  rw [alookup_reverse _ _ hkeys, alookup_zip_findIdx]
  cases hfi : columnNames.findIdx? (fun c2 => c2 == c) with
  | none =>
    rw [headerLabelValue, hfi]
    show (alookup ((labelCols.map fun c => (c, "")).reverse ++ []) c).getD "" = ""
    apply alookup_all_values
    intro q hq
    rw [List.append_nil, List.mem_reverse] at hq
    obtain ⟨c', _, rfl⟩ := List.mem_map.mp hq
    rfl
  | some i =>
    have hi : i < columnNames.length :=
      (List.findIdx?_eq_some_iff_findIdx_eq.mp hfi).1
    have h1i : 1 + i < fields.length := by omega
    have hget : (fields.drop 1).get? i = some (fields.getD (i + 1) "") := by
      rw [List.get?_eq_getElem?, List.getElem?_drop, List.getElem?_eq_getElem h1i]
      rw [show i + 1 = 1 + i from Nat.add_comm i 1]
      rw [List.getD_eq_getElem?_getD, List.getElem?_eq_getElem h1i]
      simp
    simp only [Option.some_bind]
    rw [hget, headerLabelValue, hfi]
    simp

theorem serverDataRecord_emit_length {p : String} {header : OpenvpnServerHeader}
    {st : ServerScanState} {fields columnNames : List String}
    (hhf : alookup st.headersFound (fields.headD "") = some columnNames)
    (hne : (serverDataRecord p header st fields).1 ≠ []) :
    fields.length = columnNames.length + 1 := by
  by_contra hlen
  apply hne
  rw [serverDataRecord]
  have hbf : alookup (bumpConnected (fields.headD "") st).headersFound
      (fields.headD "") = some columnNames := by
    rw [bumpConnected_headersFound]; exact hhf
  simp only [hbf]
  rw [if_pos hlen]

/-- C5: every observation emitted for a server data record carries the
label tuple made of the source identifier followed by the directive's
declared label columns in order, each resolved to the field at the
column's announced position and to the empty string when the column was
not announced (stated for headers without duplicate column names, where
the announced position is well defined). -/
theorem openvpn_C5_label_tuple
    (ig : Bool) (p : String) (st : ServerScanState) (fields : List String)
    (header : OpenvpnServerHeader) (columnNames : List String)
    (hl : alookup (openvpnServerHeaders ig) (fields.headD "") = some header)
    (hhf : alookup st.headersFound (fields.headD "") = some columnNames)
    (hnodup : columnNames.Nodup) :
    ∀ o ∈ (serverLineStep ig p st fields).1,
      o.labels = p ::
        header.LabelColumns.map (headerLabelValue columnNames fields) := by
  intro o ho
  rw [serverLineStep_eq_dataRecord hl] at ho
  have hlen : fields.length = columnNames.length + 1 :=
    serverDataRecord_emit_length hhf (by
      intro hnil
      rw [hnil] at ho
      cases ho)
  rw [serverDataRecord_labels hhf o ho]
  congr 1
  apply List.map_congr_left
  intro c _
  exact buildColumnValues_lookup header.LabelColumns columnNames fields c
    hnodup hlen

/-! ## Concrete witnesses -/

/-- Witness for the amended C1 theorem at a concrete record. -/
theorem openvpn_C1_amended_witness :
    alookup (openvpnServerHeaders true)
        ((["CLIENT_LIST", "alice", "10", "20"] : List String).headD "") =
      some ⟨["Common Name"],
        [⟨"Bytes Received", .clientReceivedBytes, .counterValue⟩,
         ⟨"Bytes Sent", .clientSentBytes, .counterValue⟩]⟩ ∧
    serverLineStep true "p"
        ⟨[("CLIENT_LIST", ["Common Name", "Bytes Received", "Bytes Sent"])], 0, []⟩
        ["CLIENT_LIST", "alice", "10", "20"] =
      ([⟨.clientReceivedBytes, .counterValue, 10, ["p", "alice"]⟩,
        ⟨.clientSentBytes, .counterValue, 20, ["p", "alice"]⟩], none,
       ⟨[("CLIENT_LIST", ["Common Name", "Bytes Received", "Bytes Sent"])], 1,
        [(⟨"Bytes Sent", .clientSentBytes, .counterValue⟩, ["p", "alice"]),
         (⟨"Bytes Received", .clientReceivedBytes, .counterValue⟩, ["p", "alice"])]⟩) ∧
    serverLineStep true "p"
        ⟨[("CLIENT_LIST", ["Common Name", "Bytes Received", "Bytes Sent"])], 1,
         [(⟨"Bytes Sent", .clientSentBytes, .counterValue⟩, ["p", "alice"]),
          (⟨"Bytes Received", .clientReceivedBytes, .counterValue⟩, ["p", "alice"])]⟩
        ["CLIENT_LIST", "alice", "10", "20"] =
      ([], none,
       bumpConnected ((["CLIENT_LIST", "alice", "10", "20"] : List String).headD "")
         ⟨[("CLIENT_LIST", ["Common Name", "Bytes Received", "Bytes Sent"])], 1,
          [(⟨"Bytes Sent", .clientSentBytes, .counterValue⟩, ["p", "alice"]),
           (⟨"Bytes Received", .clientReceivedBytes, .counterValue⟩, ["p", "alice"])]⟩) :=
  ⟨by decide, by decide,
   openvpn_C1_amended true "p"
     ⟨[("CLIENT_LIST", ["Common Name", "Bytes Received", "Bytes Sent"])], 0, []⟩
     ["CLIENT_LIST", "alice", "10", "20"]
     ⟨["Common Name"],
       [⟨"Bytes Received", .clientReceivedBytes, .counterValue⟩,
        ⟨"Bytes Sent", .clientSentBytes, .counterValue⟩]⟩
     [⟨.clientReceivedBytes, .counterValue, 10, ["p", "alice"]⟩,
      ⟨.clientSentBytes, .counterValue, 20, ["p", "alice"]⟩]
     ⟨[("CLIENT_LIST", ["Common Name", "Bytes Received", "Bytes Sent"])], 1,
      [(⟨"Bytes Sent", .clientSentBytes, .counterValue⟩, ["p", "alice"]),
       (⟨"Bytes Received", .clientReceivedBytes, .counterValue⟩, ["p", "alice"])]⟩
     (by decide) (by decide)⟩

/-- Witness for C2 at a concrete input. -/
theorem openvpn_C2_witness :
    ((("CLIENT_LIST" : String) = "CLIENT_LIST" ∨ ("CLIENT_LIST" : String) = "ROUTING_TABLE") ∧
      (goSplit (Char.ofNat 44) "CLIENT_LIST,alice").headD "" = "CLIENT_LIST" ∧
      (serverSteps false "p" (Char.ofNat 44) initServerScanState
        ["TITLE,OpenVPN 2.0"]).2.1 = none ∧
      (∀ l ∈ (["TITLE,OpenVPN 2.0"] : List String),
        ¬((goSplit (Char.ofNat 44) l).headD "" = "HEADER" ∧
          (goSplit (Char.ofNat 44) l).getD 1 "" = "CLIENT_LIST"))) ∧
    (collectServerLines false "p" (Char.ofNat 44)
        (["TITLE,OpenVPN 2.0"] ++ "CLIENT_LIST,alice" :: [])).2 =
      some (.sequenceError "CLIENT_LIST") :=
  ⟨⟨Or.inl rfl, by decide, by decide, by decide⟩,
   openvpn_C2_data_record_before_header_fails false "p" (Char.ofNat 44)
     ["TITLE,OpenVPN 2.0"] "CLIENT_LIST,alice" [] "CLIENT_LIST"
     (Or.inl rfl) (by decide) (by decide) (by decide)⟩

/-- Witness for C3 at a concrete input with a suppressed duplicate row. -/
theorem openvpn_C3_witness :
    collectServerLines true "p" (Char.ofNat 44)
        ["HEADER,CLIENT_LIST,Common Name,Bytes Received,Bytes Sent",
         "CLIENT_LIST,alice,10,20", "CLIENT_LIST,alice,10,20"] =
      ([⟨.clientReceivedBytes, .counterValue, 10, ["p", "alice"]⟩,
        ⟨.clientSentBytes, .counterValue, 20, ["p", "alice"]⟩,
        ⟨.connectedClients, .gaugeValue, 2, ["p"]⟩], none) ∧
    (∃ obs2, ([⟨.clientReceivedBytes, .counterValue, 10, ["p", "alice"]⟩,
        ⟨.clientSentBytes, .counterValue, 20, ["p", "alice"]⟩,
        ⟨.connectedClients, .gaugeValue, 2, ["p"]⟩] : List Observation) = obs2 ++
        [⟨.connectedClients, .gaugeValue,
          (((["HEADER,CLIENT_LIST,Common Name,Bytes Received,Bytes Sent",
              "CLIENT_LIST,alice,10,20", "CLIENT_LIST,alice,10,20"] : List String).countP
            fun l => decide ((goSplit (Char.ofNat 44) l).headD "" = "CLIENT_LIST")) : ℚ),
          ["p"]⟩] ∧
      ∀ o ∈ obs2, o.desc ≠ MetricDesc.connectedClients) :=
  ⟨by decide,
   openvpn_C3_connected_clients_gauge true "p" (Char.ofNat 44)
     ["HEADER,CLIENT_LIST,Common Name,Bytes Received,Bytes Sent",
      "CLIENT_LIST,alice,10,20", "CLIENT_LIST,alice,10,20"]
     [⟨.clientReceivedBytes, .counterValue, 10, ["p", "alice"]⟩,
      ⟨.clientSentBytes, .counterValue, 20, ["p", "alice"]⟩,
      ⟨.connectedClients, .gaugeValue, 2, ["p"]⟩]
     (by decide)⟩

/-- Witness for C4 on an unrecognized blob. -/
theorem openvpn_C4_witness :
    goHasPrefix (peekBuf "garbage here") "TITLE," = false ∧
    goHasPrefix (peekBuf "garbage here") "TITLE\t" = false ∧
    goHasPrefix (peekBuf "garbage here") "OpenVPN STATISTICS" = false ∧
    collectStatusFromReader false "p" "garbage here" =
      ([], some (.formatError (peekBuf "garbage here"))) :=
  ⟨by decide, by decide, by decide,
   (openvpn_C4_format_detection false "p" "garbage here").2.2.2
     (by decide) (by decide) (by decide)⟩

/-- Witness for C5 at a concrete record with full labels. -/
theorem openvpn_C5_witness :
    alookup (openvpnServerHeaders false)
        ((["CLIENT_LIST", "alice", "1", "ra", "va", "bob", "10", "20"] : List String).headD "") =
      some ⟨["Common Name", "Connected Since (time_t)", "Real Address",
             "Virtual Address", "Username"],
        [⟨"Bytes Received", .clientReceivedBytes, .counterValue⟩,
         ⟨"Bytes Sent", .clientSentBytes, .counterValue⟩]⟩ ∧
    alookup (⟨[("CLIENT_LIST",
        ["Common Name", "Connected Since (time_t)", "Real Address",
         "Virtual Address", "Username", "Bytes Received", "Bytes Sent"])], 0, []⟩ :
          ServerScanState).headersFound
        ((["CLIENT_LIST", "alice", "1", "ra", "va", "bob", "10", "20"] : List String).headD "") =
      some ["Common Name", "Connected Since (time_t)", "Real Address",
            "Virtual Address", "Username", "Bytes Received", "Bytes Sent"] ∧
    (["Common Name", "Connected Since (time_t)", "Real Address",
      "Virtual Address", "Username", "Bytes Received", "Bytes Sent"] : List String).Nodup ∧
    ∀ o ∈ (serverLineStep false "p"
        ⟨[("CLIENT_LIST",
          ["Common Name", "Connected Since (time_t)", "Real Address",
           "Virtual Address", "Username", "Bytes Received", "Bytes Sent"])], 0, []⟩
        ["CLIENT_LIST", "alice", "1", "ra", "va", "bob", "10", "20"]).1,
      o.labels = "p" ::
        (["Common Name", "Connected Since (time_t)", "Real Address",
          "Virtual Address", "Username"] : List String).map
          (headerLabelValue
            ["Common Name", "Connected Since (time_t)", "Real Address",
             "Virtual Address", "Username", "Bytes Received", "Bytes Sent"]
            ["CLIENT_LIST", "alice", "1", "ra", "va", "bob", "10", "20"]) :=
  ⟨by decide, by decide, by decide,
   openvpn_C5_label_tuple false "p"
     ⟨[("CLIENT_LIST",
       ["Common Name", "Connected Since (time_t)", "Real Address",
        "Virtual Address", "Username", "Bytes Received", "Bytes Sent"])], 0, []⟩
     ["CLIENT_LIST", "alice", "1", "ra", "va", "bob", "10", "20"]
     ⟨["Common Name", "Connected Since (time_t)", "Real Address",
       "Virtual Address", "Username"],
      [⟨"Bytes Received", .clientReceivedBytes, .counterValue⟩,
       ⟨"Bytes Sent", .clientSentBytes, .counterValue⟩]⟩
     ["Common Name", "Connected Since (time_t)", "Real Address",
      "Virtual Address", "Username", "Bytes Received", "Bytes Sent"]
     (by decide) (by decide) (by decide)⟩

/-- Witness for the amended C6 theorem: a non-string `title`. -/
theorem openvpn_C6_amended_witness :
    Jv.asString (.num 3) = none ∧
    collectStatusFromApiInterface false "p" [("i1", .obj [("title", .num 3)])] =
      ([], .panicked) :=
  ⟨rfl, openvpn_C6_amended.2 false "p" "i1" (.num 3) rfl⟩

/-- Witness for C7 at a concrete record with the wrong field count. -/
theorem openvpn_C7_witness :
    alookup (openvpnServerHeaders true)
        ((["CLIENT_LIST", "a", "b"] : List String).headD "") =
      some ⟨["Common Name"],
        [⟨"Bytes Received", .clientReceivedBytes, .counterValue⟩,
         ⟨"Bytes Sent", .clientSentBytes, .counterValue⟩]⟩ ∧
    alookup (⟨[("CLIENT_LIST", ["Common Name"])], 0, []⟩ :
        ServerScanState).headersFound
        ((["CLIENT_LIST", "a", "b"] : List String).headD "") =
      some ["Common Name"] ∧
    (["CLIENT_LIST", "a", "b"] : List String).length ≠
      (["Common Name"] : List String).length + 1 ∧
    ((serverLineStep true "p" ⟨[("CLIENT_LIST", ["Common Name"])], 0, []⟩
        ["CLIENT_LIST", "a", "b"]).1 = [] ∧
      (serverLineStep true "p" ⟨[("CLIENT_LIST", ["Common Name"])], 0, []⟩
        ["CLIENT_LIST", "a", "b"]).2.1 =
        some (.schemaError ((["CLIENT_LIST", "a", "b"] : List String).headD ""))) :=
  ⟨by decide, by decide, by decide,
   openvpn_C7_field_count_mismatch true "p"
     ⟨[("CLIENT_LIST", ["Common Name"])], 0, []⟩
     ["CLIENT_LIST", "a", "b"]
     ⟨["Common Name"],
      [⟨"Bytes Received", .clientReceivedBytes, .counterValue⟩,
       ⟨"Bytes Sent", .clientSentBytes, .counterValue⟩]⟩
     ["Common Name"] (by decide) (by decide) (by decide)⟩

/-- Witness for C8: a concrete counter line. -/
theorem openvpn_C8_witness :
    alookup openvpnClientDescs "TUN/TAP read bytes" = some .tunTapReadBytes ∧
    goParseFloat "123" = some 123 ∧
    clientLineStep "p" ["TUN/TAP read bytes", "123"] =
      ([⟨.tunTapReadBytes, .counterValue, 123, ["p"]⟩], none) :=
  ⟨by decide, by decide,
   openvpn_C8_client_lines.1 "p" "TUN/TAP read bytes" "123" .tunTapReadBytes 123
     (by decide) (by decide)⟩

/-- Witness for C9: an unsupported key after a clean prefix. -/
theorem openvpn_C9_witness :
    serverSteps false "p" (Char.ofNat 44) initServerScanState ["TITLE,x"] =
      ([], none, initServerScanState) ∧
    serverLineStep false "p" initServerScanState
        (goSplit (Char.ofNat 44) "garbage") =
      ([], some (.unsupportedKey "garbage"), initServerScanState) ∧
    (collectServerLines false "p" (Char.ofNat 44)
        (["TITLE,x"] ++ "garbage" :: ["END"]) =
      ([] ++ [], some (.unsupportedKey "garbage")) ∧
      ∀ o ∈ ([] ++ [] : List Observation),
        o.desc ≠ MetricDesc.connectedClients) :=
  ⟨by decide, by decide,
   openvpn_C9_first_error_aborts.1 false "p" (Char.ofNat 44)
     ["TITLE,x"] "garbage" ["END"] [] initServerScanState []
     (.unsupportedKey "garbage") initServerScanState
     (by decide) (by decide)⟩

/-- Witness for C10: a blank line after a clean prefix. -/
theorem openvpn_C10_witness :
    (serverSteps false "p" (Char.ofNat 44) initServerScanState
        ["TITLE,x"]).2.1 = none ∧
    (collectServerLines false "p" (Char.ofNat 44)
        (["TITLE,x"] ++ "" :: ["END"])).2 = some (.unsupportedKey "") :=
  ⟨by decide,
   (openvpn_C10_empty_line.2.2.1) false "p" (Char.ofNat 44) ["TITLE,x"] ["END"]
     (by decide)⟩
